import Mathlib

/-!
Shallow embedding of the `sil_prep` customer_order app (Django/DRF) and
verification of its specification claims.

Sources embedded:
- `customer_order/models.py`: `Category` (level / get_ancestors / get_descendants /
  get_full_path), `Product`, `Order.save` (order-number generation), `OrderItem.save`
  (unit-price snapshot and total-price computation), plus the database-level
  constraints the models declare (`unique` on `order_number`, `unique_together`
  on `(order, product)`, `PositiveIntegerField` non-negativity checks on the
  PostgreSQL backend configured in `settings.py`).
- `customer_order/serializers.py`: `OrderCreateSerializer.validate_items` and
  `OrderCreateSerializer.create` (the `@transaction.atomic` order commit).
- `customer_order/views.py`: `category_average_price`, `category_tree`, and
  `OrderListCreateView.perform_create` (including the keyword-argument merge
  performed by DRF's `serializer.save(**kwargs)`).

Conventions: decimal amounts (`price`, `unit_price`, `total_price`,
`total_amount`) are represented in cents as `Int`, which is exact for the
two-decimal-place `DecimalField` values the code manipulates; `uuid` primary
keys are represented by `Nat` drawn from a freshness counter; Python `dict`
rows are structures; database tables are lists; a Python exception aborting a
`transaction.atomic` block is an `Except.error` that restores the pre-call
state.
-/

/-- Rows of the `categories` table (models.py `Category`). -/
structure Category where
  cid : Nat
  name : String
  slug : String
  description : String
  parentId : Option Nat
  is_active : Bool
deriving DecidableEq, Repr

/-- Rows of the `products` table (models.py `Product`); `price` is in cents. -/
structure Product where
  pid : Nat
  name : String
  price : Int
  sku : String
  categoryId : Nat
  stock_quantity : Int
  is_active : Bool
deriving DecidableEq, Repr

/-- Rows of the `orders` table (models.py `Order`); `total_amount` is in cents. -/
structure Order where
  oid : Nat
  order_number : String
  customerId : Nat
  status : String
  total_amount : Int
  shipping_address : String
  notes : Option String
deriving DecidableEq, Repr

/-- Rows of the `order_items` table (models.py `OrderItem`). `quantity` is an
`Int` because the value originates from an arbitrary JSON number in the request
body; the `PositiveIntegerField` non-negativity check is applied at insert. -/
structure OrderItem where
  iid : Nat
  orderId : Nat
  productId : Nat
  quantity : Int
  unit_price : Int
  total_price : Int
deriving DecidableEq, Repr

/-- The persistent store: one list per table plus a freshness counter standing
in for uuid generation. -/
structure DB where
  categories : List Category
  products : List Product
  orders : List Order
  order_items : List OrderItem
  nextId : Nat
deriving DecidableEq, Repr

/-- Errors surfaced by the embedded code: DRF `ValidationError`s raised in
`validate_items`, Django `DoesNotExist` / `Http404`, database `IntegrityError`s
(unique and check constraints), and Python `TypeError`s. -/
inductive Err where
  | invalidInput : String → Err
  | doesNotExist : String → Err
  | integrity : String → Err
  | typeError : String → Err
  | notFound : String → Err
deriving DecidableEq, Repr

/-! ## Category tree (models.py lines 49–87, views.py `category_tree`) -/

/-- `Category.objects.get(id=...)`: follow a foreign key by primary key. -/
def findCategory (cats : List Category) (cid : Nat) : Option Category :=
  cats.find? (fun c => c.cid == cid)

/-- models.py `Category.level`: walk `parent` links counting hops.  The Python
loop follows live references; the embedding walks the arena through parent ids
with fuel bounding the walk (the arena's size suffices for any acyclic chain,
and the construction discipline named in the spec keeps chains acyclic). -/
def levelAux (cats : List Category) : Nat → Option Nat → Nat
  | _, none => 0
  | 0, some _ => 0
  | fuel+1, some p =>
    match findCategory cats p with
    | none => 0
    | some d => levelAux cats fuel d.parentId + 1

/-- models.py `Category.level` as a function of the arena. -/
def Category.level (cats : List Category) (c : Category) : Nat :=
  levelAux cats cats.length c.parentId

/-- models.py `Category.get_full_path`: collect ancestor names root-first,
starting from `[self.name]` and inserting each parent at the front. -/
def fullPathAux (cats : List Category) : Nat → Option Nat → List String → List String
  | _, none, path => path
  | 0, some _, path => path
  | fuel+1, some p, path =>
    match findCategory cats p with
    | none => path
    | some d => fullPathAux cats fuel d.parentId (d.name :: path)

/-- models.py `Category.get_full_path`: `' > '.join(path)`. -/
def get_full_path (cats : List Category) (c : Category) : String :=
  String.intercalate " > " (fullPathAux cats cats.length c.parentId [c.name])

/-- Insertion step for the `Meta.ordering = ['name']` sort Django applies to
every category queryset. -/
def insertByName (c : Category) : List Category → List Category
  | [] => [c]
  | d :: ds => if c.name ≤ d.name then c :: d :: ds else d :: insertByName c ds

/-- Sort a list of categories by name (`Meta.ordering = ['name']`). -/
def orderByName (l : List Category) : List Category :=
  l.foldr insertByName []

/-- `category.children.all()`: the reverse foreign-key queryset, ordered by
the model's default `name` ordering. -/
def childrenOf (cats : List Category) (c : Category) : List Category :=
  orderByName (cats.filter (fun d => d.parentId == some c.cid))

/-- models.py `Category.get_descendants`: depth-first walk appending each child
before recursing into it.  Fuel bounds the recursion depth. -/
def descendantsAux (cats : List Category) : Nat → Category → List Category
  | 0, _ => []
  | fuel+1, c =>
    (childrenOf cats c).flatMap (fun child => child :: descendantsAux cats fuel child)

/-- models.py `Category.get_descendants` over the arena. -/
def get_descendants (cats : List Category) (c : Category) : List Category :=
  descendantsAux cats cats.length c

/-- The node shape built by views.py `category_tree.build_tree`:
`{id, name, slug, description, level, children}`. -/
structure TreeNode where
  id : Nat
  name : String
  slug : String
  description : String
  level : Nat
  children : List TreeNode

/-- `Category.objects.filter(parent=parent, is_active=True).order_by('name')`
(views.py lines 367–370). -/
def activeChildrenOf (cats : List Category) (parent : Option Nat) : List Category :=
  orderByName (cats.filter (fun c => c.parentId == parent && c.is_active))

/-- views.py `category_tree.build_tree`: for each active category matching the
parent filter build a node and recurse into it.  Fuel bounds the recursion
depth; `cats.length` suffices for any acyclic arena. -/
def build_tree (cats : List Category) : Nat → Option Nat → List TreeNode
  | 0, _ => []
  | fuel+1, parent =>
    (activeChildrenOf cats parent).map (fun c =>
      { id := c.cid, name := c.name, slug := c.slug, description := c.description,
        level := Category.level cats c, children := build_tree cats fuel (some c.cid) })

/-- views.py `category_tree`: `build_tree()` starting from the null parent. -/
def category_tree (cats : List Category) : List TreeNode :=
  build_tree cats cats.length none

/-- All nodes of a tree down to the given depth; `build_tree cats fuel p`
produces trees of depth at most `fuel`, so `allNodesF fuel` enumerates every
node of such a tree. -/
def allNodesF : Nat → TreeNode → List TreeNode
  | 0, t => [t]
  | fuel+1, t => t :: t.children.flatMap (allNodesF fuel)

/-- Every node of the public category tree of `cats`, at any depth. -/
def treeNodes (cats : List Category) : List TreeNode :=
  (category_tree cats).flatMap (allNodesF cats.length)

/-! ## Catalog aggregation (views.py `category_average_price`) -/

/-- The response body of `category_average_price`.  `average_price` is `none`
exactly when the view returns the zero-count body whose `average_price` key is
`None`; prices are cents, so the average is a rational. -/
structure AvgResult where
  category_id : Nat
  category_name : String
  average_price : Option ℚ
  product_count : Nat
  total_value : Option Int
  message : Option String
deriving DecidableEq

/-- views.py lines 166–170: the category plus all of its descendants, and the
active products belonging to any of them. -/
def subtreeProducts (s : DB) (category : Category) : List Product :=
  let descendant_categories := category :: get_descendants s.categories category
  s.products.filter (fun p =>
    descendant_categories.any (fun c => c.cid == p.categoryId) && p.is_active)

/-- views.py `category_average_price`: 404 unless the category exists and is
active; a zero-count body with a `None` average when no active product lives in
the subtree; otherwise the `Avg`/`Count`/`Sum` aggregate. -/
def category_average_price (s : DB) (category_id : Nat) : Except Err AvgResult :=
  match s.categories.find? (fun c => c.cid == category_id && c.is_active) with
  | none => .error (.notFound "Category not found")
  | some category =>
    let products := subtreeProducts s category
    if products.isEmpty then
      .ok { category_id := category.cid, category_name := category.name,
            average_price := none, product_count := 0, total_value := none,
            message := some "No products found in this category" }
    else
      .ok { category_id := category.cid, category_name := category.name,
            average_price := some (((products.map (fun p => p.price)).sum : ℚ) / (products.length : ℚ)),
            product_count := products.length,
            total_value := some (products.map (fun p => p.price)).sum,
            message := none }

/-! ## Order transaction
(serializers.py `OrderCreateSerializer`, models.py `Order.save` / `OrderItem.save`,
views.py `OrderListCreateView.perform_create`) -/

/-- One element of the request's `items` list.  The JSON object may lack either
key, which `validate_items` checks for, hence the `Option`s. -/
structure RawItem where
  product_id : Option Nat
  quantity : Option Int
deriving DecidableEq, Repr

/-- serializers.py line 170: the insufficient-stock `ValidationError` message,
`f"Insufficient stock for {product.name}. Available: {product.stock_quantity}"`. -/
def insufficientMsg (name : String) (avail : Int) : String :=
  "Insufficient stock for " ++ name ++ ". Available: " ++ toString avail

/-- `Product.objects.get(id=..., is_active=True)` (serializers.py line 167). -/
def findActiveProduct (s : DB) (pid : Nat) : Option Product :=
  s.products.find? (fun p => p.pid == pid && p.is_active)

/-- `Product.objects.get(id=...)` with no active filter (serializers.py line 193). -/
def findProduct (s : DB) (pid : Nat) : Option Product :=
  s.products.find? (fun p => p.pid == pid)

/-- The `for item in value` loop of `validate_items` (serializers.py 162–173):
the first failing item's `ValidationError`, or `none` when all items pass. -/
def validateItemsLoop (s : DB) : List RawItem → Option Err
  | [] => none
  | item :: rest =>
    match item.product_id, item.quantity with
    | some pid, some q =>
      (match findActiveProduct s pid with
       | none => some (.invalidInput ("Product with id " ++ toString pid ++ " not found"))
       | some product =>
         if q > product.stock_quantity then
           some (.invalidInput (insufficientMsg product.name product.stock_quantity))
         else validateItemsLoop s rest)
    | _, _ => some (.invalidInput "Each item must have product_id and quantity")

/-- serializers.py `OrderCreateSerializer.validate_items`. -/
def validate_items (s : DB) (value : List RawItem) : Except Err (List RawItem) :=
  if value.isEmpty then .error (.invalidInput "Order must contain at least one item")
  else
    match validateItemsLoop s value with
    | some e => .error e
    | none => .ok value

/-- models.py line 163: `f"ORD-{int(time.time())}"`. -/
def genOrderNumber (now : Nat) : String :=
  "ORD-" ++ toString now

/-- models.py `Order.save` lines 159–164: generate the order number when none
is set yet, keyed on the wall clock second `now`. -/
def Order.presave (now : Nat) (o : Order) : Order :=
  if o.order_number = "" then { o with order_number := genOrderNumber now } else o

/-- INSERT of an order row: `Order.save` then the database's `unique=True`
constraint on `order_number` (models.py line 135), which raises
`IntegrityError` on a duplicate. -/
def insertOrder (s : DB) (now : Nat) (o : Order) : Except Err (DB × Order) :=
  let o := o.presave now
  if s.orders.any (fun q => q.order_number == o.order_number) then
    .error (.integrity "duplicate key value violates unique constraint on orders.order_number")
  else
    .ok ({ s with orders := o :: s.orders }, o)

/-- models.py `OrderItem.save` lines 200–204: default the unit price to the
product's current price when falsy, then always recompute
`total_price = unit_price * quantity`. -/
def OrderItem.presave (product_price : Int) (it : OrderItem) : OrderItem :=
  let up := if it.unit_price = 0 then product_price else it.unit_price
  { it with unit_price := up, total_price := up * it.quantity }

/-- INSERT of an order-item row: the `unique_together = ['order', 'product']`
constraint (models.py line 195) and the `PositiveIntegerField` non-negativity
check on `quantity` raise `IntegrityError`; otherwise the row is stored and the
id counter advances. -/
def insertOrderItem (s : DB) (it : OrderItem) : Except Err DB :=
  if s.order_items.any (fun j => j.orderId == it.orderId && j.productId == it.productId) then
    .error (.integrity "duplicate key value violates unique constraint on order_items (order, product)")
  else if it.quantity < 0 then
    .error (.integrity "value violates check constraint order_items.quantity is non-negative")
  else
    .ok { s with order_items := it :: s.order_items, nextId := s.nextId + 1 }

/-- UPDATE of one product row in place. -/
def saveProductList (l : List Product) (p : Product) : List Product :=
  l.map (fun r => if r.pid == p.pid then p else r)

/-- `product.save()` (serializers.py line 207): the `PositiveIntegerField`
non-negativity check on `stock_quantity` (models.py line 106) raises
`IntegrityError` when the decremented value is negative; otherwise the row is
updated. -/
def saveProduct (s : DB) (p : Product) : Except Err DB :=
  if p.stock_quantity < 0 then
    .error (.integrity "value violates check constraint products.stock_quantity is non-negative")
  else
    .ok { s with products := saveProductList s.products p }

/-- The `for item_data in items_data` loop of `OrderCreateSerializer.create`
(serializers.py 192–207): look the product up, create the order item with the
snapshot unit price, accumulate the running total, decrement and save the
stock.  An error propagates out of the surrounding `transaction.atomic`. -/
def createItemsLoop (oid : Nat) : DB → Int → List RawItem → Except Err (DB × Int)
  | s, total, [] => .ok (s, total)
  | s, total, item :: rest =>
    match item.product_id, item.quantity with
    | some pid, some q =>
      (match findProduct s pid with
       | none => .error (.doesNotExist ("Product matching query does not exist: " ++ toString pid))
       | some product =>
         let it := OrderItem.presave product.price
           { iid := s.nextId, orderId := oid, productId := pid,
             quantity := q, unit_price := product.price, total_price := 0 }
         match insertOrderItem s it with
         | .error e => .error e
         | .ok s1 =>
           match saveProduct s1 { product with stock_quantity := product.stock_quantity - q } with
           | .error e => .error e
           | .ok s2 => createItemsLoop oid s2 (total + it.total_price) rest)
    | _, _ => .error (.typeError "KeyError: item_data key missing")

/-- The final `order.total_amount = total_amount; order.save()`
(serializers.py 210–211): an UPDATE of the already-numbered order row. -/
def updateOrderTotal (s : DB) (oid : Nat) (total : Int) : DB :=
  { s with orders := s.orders.map (fun o => if o.oid == oid then { o with total_amount := total } else o) }

/-- The body of `OrderCreateSerializer.create` (serializers.py 177–213):
create the order with a zero placeholder total, run the item loop, then store
the summed total.  Run under `transaction.atomic` by `orderCreate`. -/
def orderCreateBody (s : DB) (customerId now : Nat) (shipping : String)
    (notes : Option String) (items : List RawItem) : Except Err (DB × Order) :=
  let order0 : Order :=
    { oid := s.nextId, order_number := "", customerId := customerId,
      status := "pending", total_amount := 0, shipping_address := shipping, notes := notes }
  match insertOrder { s with nextId := s.nextId + 1 } now order0 with
  | .error e => .error e
  | .ok (s1, order) =>
    match createItemsLoop order.oid s1 0 items with
    | .error e => .error e
    | .ok (s2, total) =>
      .ok (updateOrderTotal s2 order.oid total, { order with total_amount := total })

/-- `@transaction.atomic` on `OrderCreateSerializer.create` (serializers.py
line 177): when the body raises, every write it performed is rolled back and
the pre-call state is observed; on success the body's final state commits. -/
def orderCreate (s : DB) (customerId now : Nat) (shipping : String)
    (notes : Option String) (items : List RawItem) : DB × Except Err Order :=
  match orderCreateBody s customerId now shipping notes items with
  | .ok (s', o) => (s', .ok o)
  | .error e => (s, .error e)

/-- Key set of `{**self.validated_data, **kwargs}` — the merge DRF's
`BaseSerializer.save(**kwargs)` performs before calling `create`. -/
def dictUnionKeys (a b : List String) : List String :=
  a ++ b.filter (fun k => ¬ a.contains k)

/-- The keys of `OrderCreateSerializer.validated_data` (`Meta.fields`). -/
def orderCreateValidatedKeys : List String :=
  ["shipping_address", "notes", "items"]

/-- serializers.py 179–187: `create` pops `items` and then calls
`Order.objects.create(customer=.., total_amount=.., **validated_data)`; Python
raises `TypeError` at that call when the splatted dict still holds a
`customer` or `total_amount` key. -/
def orderCreateDupKwarg (mergedKeys : List String) : Bool :=
  let remaining := mergedKeys.erase "items"
  remaining.contains "customer" || remaining.contains "total_amount"

/-- `OrderCreateSerializer.create` as invoked through `serializer.save`, with
`mergedKeys` the key set of the merged `validated_data`: the duplicate-keyword
`TypeError` is raised before any row is touched, otherwise the atomic body
runs. -/
def serializerCreate (s : DB) (mergedKeys : List String) (customerId now : Nat)
    (shipping : String) (notes : Option String) (items : List RawItem) : DB × Except Err Order :=
  if orderCreateDupKwarg mergedKeys then
    (s, .error (.typeError "create() got multiple values for a keyword argument"))
  else orderCreate s customerId now shipping notes items

/-- The order-creation request as served by the serializer alone
(`serializer.is_valid()` running `validate_items`, then `serializer.save()`
with no extra kwargs): the path every spec-level order claim is about. -/
def createOrderRequest (s : DB) (customerId now : Nat) (shipping : String)
    (notes : Option String) (items : List RawItem) : DB × Except Err Order :=
  match validate_items s items with
  | .error e => (s, .error e)
  | .ok v => serializerCreate s orderCreateValidatedKeys customerId now shipping notes v

/-- The pre-save half of `OrderListCreateView.perform_create` (views.py
212–226): re-resolve every product with `get_object_or_404(..., is_active=True)`
and accumulate `product.price * quantity`. -/
def performCreateTotalLoop (s : DB) : List RawItem → Except Err Int
  | [] => .ok 0
  | item :: rest =>
    match item.product_id, item.quantity with
    | some pid, some q =>
      (match findActiveProduct s pid with
       | none => .error (.notFound "No Product matches the given query")
       | some product =>
         match performCreateTotalLoop s rest with
         | .error e => .error e
         | .ok t => .ok (product.price * q + t))
    | _, _ => .error (.typeError "KeyError: item_data key missing")

/-- views.py `OrderListCreateView.perform_create` (lines 209–247) composed
with the DRF `create` flow that precedes it (`is_valid` → `perform_create`):
compute the totals, then call
`serializer.save(customer=.., total_amount=.., shipping_address=..)` whose
kwargs merge into `validated_data`; the notification sends after a successful
save are state-free and elided. -/
def viewCreateOrder (s : DB) (customerId now : Nat) (shipping : String)
    (notes : Option String) (items : List RawItem) : DB × Except Err Order :=
  match validate_items s items with
  | .error e => (s, .error e)
  | .ok v =>
    match performCreateTotalLoop s v with
    | .error e => (s, .error e)
    | .ok _total =>
      serializerCreate s
        (dictUnionKeys orderCreateValidatedKeys ["customer", "total_amount", "shipping_address"])
        customerId now shipping notes v

deriving instance DecidableEq for Except

/-! ## Observation functions used to state the claims -/

/-- The stock of the product with primary key `pid`, when it exists. -/
def stockOf (s : DB) (pid : Nat) : Option Int :=
  (findProduct s pid).map (fun p => p.stock_quantity)

/-- `sum(item.total_price for item in items)`. -/
def sumTotalPrice (l : List OrderItem) : Int :=
  (l.map (fun it => it.total_price)).sum

/-- Total quantity the order items in `l` take from the product `pid`. -/
def itemsQty (l : List OrderItem) (pid : Nat) : Int :=
  ((l.filter (fun it => it.productId == pid)).map (fun it => it.quantity)).sum

/-- `order.items.all()`: the items belonging to the order `oid`. -/
def itemsOfOrder (s : DB) (oid : Nat) : List OrderItem :=
  s.order_items.filter (fun it => it.orderId == oid)

/-- The primary keys of a product table. -/
def pidsOf (l : List Product) : List Nat :=
  l.map (fun p => p.pid)

/-- An item the `validate_items` loop accepts: both keys present, the product
exists and is active, and the quantity does not exceed its stock. -/
def itemPasses (s : DB) (it : RawItem) : Prop :=
  ∃ pid q p, it.product_id = some pid ∧ it.quantity = some q ∧
    findActiveProduct s pid = some p ∧ q ≤ p.stock_quantity

/-- Database well-formedness: ids already allocated are below the freshness
counter, and every stored stock is non-negative (the `PositiveIntegerField`
invariant). -/
def WF (s : DB) : Prop :=
  (∀ q ∈ s.orders, q.oid < s.nextId) ∧
  (∀ it ∈ s.order_items, it.orderId < s.nextId) ∧
  (∀ p ∈ s.products, 0 ≤ p.stock_quantity)

instance (s : DB) : Decidable (WF s) := by
  unfold WF
  infer_instance

/-- The ids reachable from a parent filter by repeatedly stepping to active
children — the ids `build_tree` can ever emit below that filter. -/
def activeReach (cats : List Category) : Nat → Option Nat → List Nat
  | 0, _ => []
  | fuel+1, parent =>
    (cats.filter (fun c => c.parentId == parent && c.is_active)).flatMap
      (fun c => c.cid :: activeReach cats fuel (some c.cid))

/-! ## Concrete instances for witnesses and counterexamples -/

/-- Root category `A` of the three-level chain. -/
def chainA : Category :=
  { cid := 0, name := "A", slug := "a", description := "", parentId := none, is_active := true }

/-- Category `B`, child of `A`. -/
def chainB : Category :=
  { cid := 1, name := "B", slug := "b", description := "", parentId := some 0, is_active := true }

/-- Category `C`, child of `B`. -/
def chainC : Category :=
  { cid := 2, name := "C", slug := "c", description := "", parentId := some 1, is_active := true }

/-- The arena holding the chain `A → B → C`. -/
def chainCats : List Category := [chainA, chainB, chainC]

/-- `B` soft-deactivated, for exercising the hard-cut pruning. -/
def chainBInactive : Category := { chainB with is_active := false }

/-- Arena with an inactive middle category but an active grandchild. -/
def prunedCats : List Category := [chainA, chainBInactive, chainC]

/-- A product with 10 units in stock priced 99.99 (9999 cents). -/
def prodW : Product :=
  { pid := 7, name := "iPhone", price := 9999, sku := "S1", categoryId := 0,
    stock_quantity := 10, is_active := true }

/-- Base store for the concrete runs: the category chain, one product, no
orders yet. -/
def dbW : DB :=
  { categories := chainCats, products := [prodW], orders := [], order_items := [], nextId := 100 }

/-- The order committed by ordering 2 units of `prodW` at second 555. -/
def orderW : Order :=
  { oid := 100, order_number := "ORD-555", customerId := 1, status := "pending",
    total_amount := 19998, shipping_address := "addr", notes := none }

/-- The single line item of `orderW`. -/
def itemW : OrderItem :=
  { iid := 101, orderId := 100, productId := 7, quantity := 2, unit_price := 9999,
    total_price := 19998 }

/-- The store after committing `orderW`: stock decremented 10 → 8. -/
def dbW' : DB :=
  { categories := chainCats, products := [{ prodW with stock_quantity := 8 }],
    orders := [orderW], order_items := [itemW], nextId := 102 }

/-- The order committed by ordering 1 unit of `prodW` at second 100. -/
def orderW1 : Order :=
  { oid := 100, order_number := "ORD-100", customerId := 1, status := "pending",
    total_amount := 9999, shipping_address := "addr", notes := none }

/-- The single line item of `orderW1`. -/
def itemW1 : OrderItem :=
  { iid := 101, orderId := 100, productId := 7, quantity := 1, unit_price := 9999,
    total_price := 9999 }

/-- The store after committing `orderW1` at second 100. -/
def dbW1 : DB :=
  { categories := chainCats, products := [{ prodW with stock_quantity := 9 }],
    orders := [orderW1], order_items := [itemW1], nextId := 102 }

/-! ## Theorems -/

/-- C6: for the three-level parent chain `A → B → C`, `get_descendants A`
returns exactly `{B, C}` (excluding `A` itself), `level C = 2`, and
`get_full_path C = "A > B > C"`. -/
theorem three_level_chain_descendants_level_path :
    get_descendants chainCats chainA = [chainB, chainC] ∧
    chainA ∉ get_descendants chainCats chainA ∧
    Category.level chainCats chainC = 2 ∧
    get_full_path chainCats chainC = "A > B > C" := by
  decide

/-- When the `validate_items` loop accepts a list, every item of the list
passes all of its checks. -/
theorem validateItemsLoop_none_passes (s : DB) :
    ∀ its, validateItemsLoop s its = none → ∀ it ∈ its, itemPasses s it := by
  intro its
  induction its with
  | nil => simp
  | cons item rest ih =>
    intro h it hit
    cases hp : item.product_id with
    | none => simp [validateItemsLoop, hp] at h
    | some pid =>
      cases hq : item.quantity with
      | none => simp [validateItemsLoop, hp, hq] at h
      | some q =>
        cases hfp : findActiveProduct s pid with
        | none => simp [validateItemsLoop, hp, hq, hfp] at h
        | some p =>
          simp only [validateItemsLoop, hp, hq, hfp] at h
          by_cases hgt : q > p.stock_quantity
          · rw [if_pos hgt] at h; cases h
          · rw [if_neg hgt] at h
            rcases List.mem_cons.mp hit with rfl | hmem
            · exact ⟨pid, q, p, hp, hq, hfp, by omega⟩
            · exact ih h it hmem

/-- Passing items at the front of the list are skipped by the
`validate_items` loop. -/
theorem validateItemsLoop_skip (s : DB) :
    ∀ pre rest, (∀ it ∈ pre, itemPasses s it) →
      validateItemsLoop s (pre ++ rest) = validateItemsLoop s rest := by
  intro pre
  induction pre with
  | nil => simp
  | cons hd t ih =>
    intro rest hall
    obtain ⟨pid, q, p, h1, h2, h3, h4⟩ := hall hd (by simp)
    simp only [List.cons_append, validateItemsLoop, h1, h2, h3]
    rw [if_neg (by omega)]
    exact ih rest (fun it hit => hall it (by simp [hit]))

/-- The `validate_items` loop reports the insufficient-stock message when its
first item is over stock. -/
theorem validateItemsLoop_insufficient (s : DB) (item : RawItem) (rest : List RawItem)
    (pid : Nat) (q : Int) (p : Product)
    (h1 : item.product_id = some pid) (h2 : item.quantity = some q)
    (h3 : findActiveProduct s pid = some p) (h4 : q > p.stock_quantity) :
    validateItemsLoop s (item :: rest) =
      some (.invalidInput (insufficientMsg p.name p.stock_quantity)) := by
  simp only [validateItemsLoop, h1, h2, h3, if_pos h4]

/-- A request whose `items` fail validation is answered with that error and
leaves the store untouched. -/
theorem createOrderRequest_validation_error (s : DB) (cId now : Nat) (sh : String)
    (notes : Option String) (items : List RawItem) (e : Err)
    (hne : items ≠ []) (h : validateItemsLoop s items = some e) :
    createOrderRequest s cId now sh notes items = (s, .error e) := by
  simp only [createOrderRequest, validate_items]
  rw [if_neg (by simpa [List.isEmpty_iff] using hne), h]

/-- C3 (amended): a request containing a line whose quantity exceeds the
stock of its existing, active product always fails with a `ValidationError`,
leaves every product's stock unchanged and creates no Order row; the error is
the InsufficientStock message carrying the product name and the available
quantity whenever the lines preceding the offending one all pass validation
(in particular whenever the offending line is first). -/
theorem insufficient_stock_rejection (s : DB) (cId now : Nat) (sh : String)
    (notes : Option String) (pre : List RawItem) (item : RawItem) (rest : List RawItem)
    (pid : Nat) (q : Int) (p : Product)
    (h1 : item.product_id = some pid) (h2 : item.quantity = some q)
    (h3 : findActiveProduct s pid = some p) (h4 : q > p.stock_quantity) :
    (∃ e, (createOrderRequest s cId now sh notes (pre ++ item :: rest)).2 = Except.error e) ∧
    (createOrderRequest s cId now sh notes (pre ++ item :: rest)).1 = s ∧
    ((∀ it ∈ pre, itemPasses s it) →
      (createOrderRequest s cId now sh notes (pre ++ item :: rest)).2 =
        Except.error (Err.invalidInput (insufficientMsg p.name p.stock_quantity))) := by
  have hne : pre ++ item :: rest ≠ [] := by
    intro hnil
    exact absurd (List.append_eq_nil.mp hnil).2 (by simp)
  have hnotpass : ¬ itemPasses s item := by
    rintro ⟨pid', q', p', e1, e2, e3, e4⟩
    rw [h1] at e1; rw [h2] at e2
    obtain rfl : pid = pid' := by injection e1
    obtain rfl : q = q' := by injection e2
    rw [h3] at e3
    obtain rfl : p = p' := by injection e3
    omega
  cases hv : validateItemsLoop s (pre ++ item :: rest) with
  | none =>
    exact absurd (validateItemsLoop_none_passes s _ hv item (by simp)) hnotpass
  | some e =>
    have hreq := createOrderRequest_validation_error s cId now sh notes _ e hne hv
    refine ⟨⟨e, by rw [hreq]⟩, by rw [hreq], ?_⟩
    intro hpre
    have : validateItemsLoop s (pre ++ item :: rest) =
        some (.invalidInput (insufficientMsg p.name p.stock_quantity)) := by
      rw [validateItemsLoop_skip s pre (item :: rest) hpre]
      exact validateItemsLoop_insufficient s item rest pid q p h1 h2 h3 h4
    rw [hv] at this
    injection this with hsome
    rw [hreq, hsome]

/-- C3 counterexample: a request that does contain an over-stock line
(20 > 10 of `prodW`) but whose first invalid line references a missing
product fails with the not-found `ValidationError`, which does not carry the
product name and available quantity. -/
theorem insufficient_line_not_first_cex :
    (createOrderRequest dbW 1 555 "addr" none
        [⟨some 99, some 1⟩, ⟨some 7, some 20⟩]).2 =
      Except.error (Err.invalidInput "Product with id 99 not found") ∧
    findActiveProduct dbW 7 = some prodW ∧ (20 : Int) > prodW.stock_quantity ∧
    Err.invalidInput "Product with id 99 not found" ≠
      Err.invalidInput (insufficientMsg prodW.name prodW.stock_quantity) := by
  decide

/-- C3 witness: the spec's own example — ordering 20 of the 10-in-stock
product as the only line fails with the InsufficientStock message naming the
product and the available quantity, and the store is untouched. -/
theorem insufficient_stock_rejection_witness :
    (⟨some 7, some 20⟩ : RawItem).product_id = some 7 ∧
    findActiveProduct dbW 7 = some prodW ∧ (20 : Int) > prodW.stock_quantity ∧
    ((∃ e, (createOrderRequest dbW 1 555 "addr" none ([] ++ ⟨some 7, some 20⟩ :: [])).2 =
        Except.error e) ∧
     (createOrderRequest dbW 1 555 "addr" none ([] ++ ⟨some 7, some 20⟩ :: [])).1 = dbW ∧
     ((∀ it ∈ ([] : List RawItem), itemPasses dbW it) →
       (createOrderRequest dbW 1 555 "addr" none ([] ++ ⟨some 7, some 20⟩ :: [])).2 =
         Except.error (Err.invalidInput (insufficientMsg prodW.name prodW.stock_quantity)))) :=
  ⟨rfl, by decide, by decide,
    insufficient_stock_rejection dbW 1 555 "addr" none [] ⟨some 7, some 20⟩ [] 7 20 prodW
      rfl rfl (by decide) (by decide)⟩

/-- Replacing a product row in place never changes the table's key column. -/
theorem pidsOf_saveProductList (l : List Product) (p : Product) :
    pidsOf (saveProductList l p) = pidsOf l := by
  induction l with
  | nil => rfl
  | cons r t ih =>
    show ((if r.pid == p.pid then p else r) :: saveProductList t p).map (fun x => x.pid)
        = r.pid :: t.map (fun x => x.pid)
    by_cases h : (r.pid == p.pid) = true
    · have hpid : r.pid = p.pid := by simpa using h
      simpa [h, hpid] using ih
    · simpa [h] using ih

/-- Effect of an in-place product update on primary-key lookup. -/
theorem find?_saveProductList (l : List Product) (p : Product) (x : Nat) :
    (saveProductList l p).find? (fun r => r.pid == x) =
      if x = p.pid then (l.find? (fun r => r.pid == x)).map (fun _ => p)
      else l.find? (fun r => r.pid == x) := by
  induction l with
  | nil => by_cases h : x = p.pid <;> simp [saveProductList, h]
  | cons r t ih =>
    show ((if r.pid == p.pid then p else r) :: saveProductList t p).find? (fun r => r.pid == x) = _
    by_cases hrp : (r.pid == p.pid) = true
    · have h1 : r.pid = p.pid := by simpa using hrp
      rw [if_pos hrp]
      by_cases hx : x = p.pid
      · subst hx
        simp [List.find?_cons, h1]
      · have hpx : (p.pid == x) = false := by
          simp only [beq_eq_false_iff_ne, ne_eq]
          omega
        have hrx : (r.pid == x) = false := by rw [h1]; exact hpx
        simp [List.find?_cons, hpx, hrx, if_neg hx, ih]
    · rw [if_neg hrp]
      have h1 : r.pid ≠ p.pid := by simpa using hrp
      by_cases hrx : (r.pid == x) = true
      · have hx : x ≠ p.pid := by
          intro hxe
          exact h1 (by simpa [hxe] using hrx)
        simp [List.find?_cons, hrx, if_neg hx]
      · have hrx' : (r.pid == x) = false := by simpa using hrx
        simp [List.find?_cons, hrx', ih]

/-- Rows of an updated product table are the written row or original rows. -/
theorem mem_saveProductList {r : Product} {l : List Product} {p : Product}
    (h : r ∈ saveProductList l p) : r = p ∨ r ∈ l := by
  rcases List.mem_map.mp h with ⟨a, ha, heq⟩
  by_cases hc : (a.pid == p.pid) = true
  · left; rw [← heq]; simp [hc]
  · right
    rw [← heq]
    simpa [hc] using ha

/-- Inversion of a successful order INSERT. -/
theorem insertOrder_ok {s : DB} {now : Nat} {o : Order} {s1 : DB} {o1 : Order}
    (h : insertOrder s now o = .ok (s1, o1)) :
    o1 = o.presave now ∧ s1 = { s with orders := o1 :: s.orders } ∧
    ∀ q ∈ s.orders, q.order_number ≠ o1.order_number := by
  simp only [insertOrder] at h
  split at h
  · cases h
  · next hany =>
    injection h with h'
    injection h' with hs ho
    subst ho
    refine ⟨rfl, hs.symm, ?_⟩
    intro q hq heq
    exact hany (by simp only [List.any_eq_true]; exact ⟨q, hq, by simp [heq]⟩)

/-- Inversion of a successful order-item INSERT. -/
theorem insertOrderItem_ok {s : DB} {it : OrderItem} {s1 : DB}
    (h : insertOrderItem s it = .ok s1) :
    s1 = { s with order_items := it :: s.order_items, nextId := s.nextId + 1 } ∧
    (∀ j ∈ s.order_items, ¬(j.orderId = it.orderId ∧ j.productId = it.productId)) ∧
    0 ≤ it.quantity := by
  unfold insertOrderItem at h
  split at h
  · cases h
  · next hany =>
    split at h
    · cases h
    · next hq =>
      injection h with h'
      refine ⟨h'.symm, ?_, by omega⟩
      intro j hj ⟨e1, e2⟩
      exact hany (by simp only [List.any_eq_true]; exact ⟨j, hj, by simp [e1, e2]⟩)

/-- Inversion of a successful product UPDATE. -/
theorem saveProduct_ok {s : DB} {p : Product} {s2 : DB}
    (h : saveProduct s p = .ok s2) :
    s2 = { s with products := saveProductList s.products p } ∧ 0 ≤ p.stock_quantity := by
  unfold saveProduct at h
  split at h
  · cases h
  · next hq =>
    injection h with h'
    exact ⟨h'.symm, by omega⟩

/-- The unit-price snapshot taken by `OrderItem.objects.create(...,
unit_price=product.price)` followed by `OrderItem.save`. -/
theorem presave_snapshot (pp : Int) (iid oid pid : Nat) (q : Int) :
    OrderItem.presave pp
        { iid := iid, orderId := oid, productId := pid, quantity := q,
          unit_price := pp, total_price := 0 } =
      { iid := iid, orderId := oid, productId := pid, quantity := q,
        unit_price := pp, total_price := pp * q } := by
  unfold OrderItem.presave
  by_cases h : pp = 0 <;> simp [h]

/-- Quantities taken by a concatenation of item lists. -/
theorem itemsQty_append (a b : List OrderItem) (pid : Nat) :
    itemsQty (a ++ b) pid = itemsQty a pid + itemsQty b pid := by
  simp [itemsQty, List.filter_append]

/-- Quantity taken by a single item. -/
theorem itemsQty_single (it : OrderItem) (pid : Nat) :
    itemsQty [it] pid = if it.productId = pid then it.quantity else 0 := by
  by_cases h : it.productId = pid <;> simp [itemsQty, h]

/-- Item totals of a concatenation of item lists. -/
theorem sumTotalPrice_append (a b : List OrderItem) :
    sumTotalPrice (a ++ b) = sumTotalPrice a + sumTotalPrice b := by
  simp [sumTotalPrice]

/-- Mapping a function that fixes every element of a list is the identity. -/
theorem map_id_of_eq {α : Type} (l : List α) (f : α → α) (h : ∀ a ∈ l, f a = a) :
    l.map f = l := by
  induction l with
  | nil => rfl
  | cons a t ih => simp [h a (by simp), ih (fun b hb => h b (by simp [hb]))]

/-- Master specification of the item-creation loop of
`OrderCreateSerializer.create` on success: the final state extends the initial
one with exactly the new items of the order, the returned total is the initial
total plus the new items' total prices, each new item's `total_price` is
`unit_price * quantity`, each product's stock drops by exactly the quantity the
new items take from it, and every touched product row is non-negative. -/
theorem createItemsLoop_ok_spec (oid : Nat) :
    ∀ (its : List RawItem) (s : DB) (total : Int) (s2 : DB) (total' : Int),
    createItemsLoop oid s total its = .ok (s2, total') →
    ∃ new : List OrderItem,
      s2.order_items = new ++ s.order_items ∧
      s2.orders = s.orders ∧
      s2.categories = s.categories ∧
      s.nextId ≤ s2.nextId ∧
      pidsOf s2.products = pidsOf s.products ∧
      (∀ it ∈ new, it.orderId = oid ∧ it.total_price = it.unit_price * it.quantity ∧
        0 ≤ it.quantity) ∧
      total' = total + sumTotalPrice new ∧
      (∀ pid, stockOf s2 pid = (stockOf s pid).map (fun v => v - itemsQty new pid)) ∧
      (∀ p ∈ s2.products, p ∈ s.products ∨ 0 ≤ p.stock_quantity) := by
  intro its
  induction its with
  | nil =>
    intro s total s2 total' h
    simp only [createItemsLoop] at h
    injection h with h'
    rw [Prod.mk.injEq] at h'
    obtain ⟨rfl, rfl⟩ := h'
    refine ⟨[], by simp, rfl, rfl, le_refl _, rfl, by simp, by simp [sumTotalPrice], ?_, ?_⟩
    · intro pid
      cases stockOf s pid <;> simp [itemsQty]
    · intro p hp
      exact Or.inl hp
  | cons item rest ih =>
    intro s total s2 total' h
    simp only [createItemsLoop] at h
    cases hp : item.product_id with
    | none => simp [hp] at h
    | some pid =>
      cases hq : item.quantity with
      | none => simp [hp, hq] at h
      | some q =>
        cases hfp : findProduct s pid with
        | none => simp [hp, hq, hfp] at h
        | some product =>
          simp only [hp, hq, hfp] at h
          rw [presave_snapshot] at h
          have hpid_eq : product.pid = pid := by
            have hfp' : s.products.find? (fun p => p.pid == pid) = some product := hfp
            simpa using List.find?_some hfp'
          have hprodmem : product ∈ s.products := by
            have hfp' : s.products.find? (fun p => p.pid == pid) = some product := hfp
            exact List.mem_of_find?_eq_some hfp'
          split at h
          · simp at h
          · next s1 heq1 =>
            obtain ⟨hs1, hnodup, hq0⟩ := insertOrderItem_ok heq1
            split at h
            · simp at h
            · next sb heq2 =>
              obtain ⟨hsb, hstk⟩ := saveProduct_ok heq2
              subst hs1
              subst hsb
              obtain ⟨newr, ih1, ih2, ih3, ih4, ih5, ih6, ih7, ih8, ih9⟩ := ih _ _ _ _ h
              refine ⟨newr ++
                [{ iid := s.nextId, orderId := oid, productId := pid, quantity := q,
                   unit_price := product.price, total_price := product.price * q }],
                ?_, ?_, ?_, ?_, ?_, ?_, ?_, ?_, ?_⟩
              · rw [ih1]; simp
              · rw [ih2]
              · rw [ih3]
              · simp only at ih4; omega
              · rw [ih5]
                simpa using pidsOf_saveProductList s.products
                  { product with stock_quantity := product.stock_quantity - q }
              · intro it hit
                rcases List.mem_append.mp hit with hm | hm
                · exact ih6 it hm
                · rcases List.mem_singleton.mp hm with rfl
                  exact ⟨rfl, rfl, by simpa using hq0⟩
              · rw [ih7, sumTotalPrice_append]
                simp only [sumTotalPrice, List.map_cons, List.map_nil, List.sum_cons,
                  List.sum_nil]
                ring
              · intro x
                rw [ih8 x]
                simp only [stockOf, findProduct]
                rw [find?_saveProductList]
                by_cases hpp : x = pid
                · subst hpp
                  rw [if_pos (by simpa using hpid_eq.symm)]
                  have hfp' : s.products.find? (fun p => p.pid == x) = some product := hfp
                  rw [hfp']
                  simp [itemsQty, List.filter_append, List.filter_cons]
                  omega
                · rw [if_neg (by simpa using fun hh => hpp (hh.trans hpid_eq))]
                  have hbeq : (pid == x) = false := by
                    simp only [beq_eq_false_iff_ne, ne_eq]
                    omega
                  simp [itemsQty, List.filter_append, List.filter_cons, hbeq]
              · intro p hpmem
                rcases ih9 p hpmem with hm | hpos
                · rcases mem_saveProductList (by simpa using hm) with rfl | hm2
                  · exact Or.inr (by simpa using hstk)
                  · exact Or.inl hm2
                · exact Or.inr hpos

/-- Specification of a successful run of the `OrderCreateSerializer.create`
body (and hence of the committed transaction): the new order row carries the
generated number, the caller, a pending status and the summed total; exactly
its items are appended; stock drops by exactly the ordered quantities. -/
theorem orderCreateBody_ok_spec {s : DB} {cId now : Nat} {sh : String}
    {notes : Option String} {items : List RawItem} {s' : DB} {o : Order}
    (hfresh : ∀ q ∈ s.orders, q.oid ≠ s.nextId)
    (h : orderCreateBody s cId now sh notes items = .ok (s', o)) :
    ∃ new : List OrderItem,
      s'.orders = o :: s.orders ∧
      o.oid = s.nextId ∧
      o.order_number = genOrderNumber now ∧
      (∀ q ∈ s.orders, q.order_number ≠ genOrderNumber now) ∧
      o.customerId = cId ∧ o.status = "pending" ∧
      o.shipping_address = sh ∧ o.notes = notes ∧
      o.total_amount = sumTotalPrice new ∧
      s'.order_items = new ++ s.order_items ∧
      (∀ it ∈ new, it.orderId = s.nextId ∧ it.total_price = it.unit_price * it.quantity ∧
        0 ≤ it.quantity) ∧
      (∀ pid, stockOf s' pid = (stockOf s pid).map (fun v => v - itemsQty new pid)) ∧
      pidsOf s'.products = pidsOf s.products ∧
      (∀ p ∈ s'.products, p ∈ s.products ∨ 0 ≤ p.stock_quantity) ∧
      s'.categories = s.categories ∧
      s.nextId < s'.nextId := by
  simp only [orderCreateBody] at h
  split at h
  · simp at h
  · next s1 o1 heq1 =>
    obtain ⟨ho1, hs1, hnum⟩ := insertOrder_ok heq1
    have ho1' : o1 =
        { oid := s.nextId, order_number := genOrderNumber now, customerId := cId,
          status := "pending", total_amount := 0, shipping_address := sh, notes := notes } := by
      rw [ho1]
      unfold Order.presave
      rw [if_pos rfl]
    split at h
    · simp at h
    · next s2 total heq2 =>
      injection h with h'
      rw [Prod.mk.injEq] at h'
      obtain ⟨hs', ho⟩ := h'
      obtain ⟨new, l1, l2, l3, l4, l5, l6, l7, l8, l9⟩ := createItemsLoop_ok_spec _ _ _ _ _ _ heq2
      subst hs1
      refine ⟨new, ?_, ?_, ?_, ?_, ?_, ?_, ?_, ?_, ?_, ?_, ?_, ?_, ?_, ?_, ?_, ?_⟩
      · rw [← hs']
        show (updateOrderTotal s2 o1.oid total).orders = o :: s.orders
        unfold updateOrderTotal
        simp only
        rw [l2]
        simp only
        show ((o1 :: s.orders).map fun q => if q.oid == o1.oid then
          { q with total_amount := total } else q) = o :: s.orders
        rw [List.map_cons]
        rw [if_pos (by simp)]
        rw [map_id_of_eq s.orders _ (fun q hq => by
          rw [if_neg ?_]
          simp only [beq_eq_false_iff_ne, ne_eq] at *
          have := hfresh q hq
          rw [ho1']
          simpa using this)]
        rw [← ho]
      · rw [← ho, ho1']
      · rw [← ho, ho1']
      · intro q hq
        have := hnum q hq
        rw [ho1'] at this
        simpa using this
      · rw [← ho, ho1']
      · rw [← ho, ho1']
      · rw [← ho, ho1']
      · rw [← ho, ho1']
      · rw [← ho]
        show total = sumTotalPrice new
        rw [l7]
        omega
      · rw [← hs']
        show (updateOrderTotal s2 o1.oid total).order_items = new ++ s.order_items
        unfold updateOrderTotal
        simpa using l1
      · intro it hit
        have := l6 it hit
        rw [ho1'] at this
        simpa using this
      · intro pid
        rw [← hs']
        have : stockOf (updateOrderTotal s2 o1.oid total) pid = stockOf s2 pid := by
          unfold updateOrderTotal stockOf findProduct
          simp only
        rw [this, l8 pid]
        rfl
      · rw [← hs']
        have : pidsOf (updateOrderTotal s2 o1.oid total).products = pidsOf s2.products := rfl
        rw [this, l5]
      · intro p hp
        rw [← hs'] at hp
        have hp2 : p ∈ s2.products := hp
        rcases l9 p hp2 with hm | hpos
        · exact Or.inl hm
        · exact Or.inr hpos
      · rw [← hs']
        show (updateOrderTotal s2 o1.oid total).categories = s.categories
        unfold updateOrderTotal
        simpa using l3
      · rw [← hs']
        show s.nextId < (updateOrderTotal s2 o1.oid total).nextId
        have : (updateOrderTotal s2 o1.oid total).nextId = s2.nextId := rfl
        rw [this]
        simp only at l4
        omega

/-- On an error the `transaction.atomic` wrapper observes the pre-call state. -/
theorem orderCreate_error_state {s : DB} {cId now : Nat} {sh : String}
    {notes : Option String} {items : List RawItem} {e : Err}
    (h : (orderCreate s cId now sh notes items).2 = .error e) :
    (orderCreate s cId now sh notes items).1 = s := by
  unfold orderCreate at *
  cases hb : orderCreateBody s cId now sh notes items with
  | ok p => simp only [hb] at h; exact Except.noConfusion h
  | error e' => simp only [hb]

/-- A successful `orderCreate` is a successful body run. -/
theorem orderCreate_ok_spec {s : DB} {cId now : Nat} {sh : String}
    {notes : Option String} {items : List RawItem} {s' : DB} {o : Order}
    (h : orderCreate s cId now sh notes items = (s', .ok o)) :
    orderCreateBody s cId now sh notes items = .ok (s', o) := by
  unfold orderCreate at h
  cases hb : orderCreateBody s cId now sh notes items with
  | ok p =>
    obtain ⟨s2, o2⟩ := p
    simp only [hb, Prod.mk.injEq] at h
    obtain ⟨rfl, h2⟩ := h
    injection h2 with h3
    rw [h3]
  | error e' =>
    simp only [hb, Prod.mk.injEq] at h
    exact absurd h.2 (by simp)

/-- The `validated_data` of the plain serializer flow holds no duplicate of
the explicit `customer` / `total_amount` keyword arguments. -/
theorem serializerCreate_plain (s : DB) (cId now : Nat) (sh : String)
    (notes : Option String) (items : List RawItem) :
    serializerCreate s orderCreateValidatedKeys cId now sh notes items =
      orderCreate s cId now sh notes items := by
  unfold serializerCreate
  rw [if_neg (by decide)]

/-- Inversion of a successful `validate_items`: the value is returned
unchanged and every item passed the loop. -/
theorem validate_items_ok {s : DB} {items v : List RawItem}
    (h : validate_items s items = .ok v) :
    v = items ∧ validateItemsLoop s items = none := by
  unfold validate_items at h
  split at h
  · cases h
  · cases hv : validateItemsLoop s items with
    | some e => rw [hv] at h; cases h
    | none =>
      rw [hv] at h
      injection h with h2
      exact ⟨h2.symm, rfl⟩

/-- Inversion of a successful serializer-level order-creation request. -/
theorem createOrderRequest_ok_inv {s : DB} {cId now : Nat} {sh : String}
    {notes : Option String} {items : List RawItem} {s' : DB} {o : Order}
    (h : createOrderRequest s cId now sh notes items = (s', .ok o)) :
    validateItemsLoop s items = none ∧
    orderCreate s cId now sh notes items = (s', .ok o) := by
  unfold createOrderRequest at h
  cases hv : validate_items s items with
  | error e =>
    simp only [hv, Prod.mk.injEq] at h
    exact absurd h.2 (by simp)
  | ok v =>
    obtain ⟨rfl, hnone⟩ := validate_items_ok hv
    simp only [hv] at h
    rw [serializerCreate_plain] at h
    exact ⟨hnone, h⟩

/-- A failed serializer-level request leaves the store untouched. -/
theorem createOrderRequest_error_state {s : DB} {cId now : Nat} {sh : String}
    {notes : Option String} {items : List RawItem} {e : Err}
    (h : (createOrderRequest s cId now sh notes items).2 = .error e) :
    (createOrderRequest s cId now sh notes items).1 = s := by
  unfold createOrderRequest at *
  cases hv : validate_items s items with
  | error e2 => simp only [hv]
  | ok v =>
    simp only [hv] at h ⊢
    rw [serializerCreate_plain] at h ⊢
    exact orderCreate_error_state h

/-- A filter keeping every element is the identity. -/
theorem filter_eq_self_of {α : Type} (l : List α) (p : α → Bool)
    (h : ∀ a ∈ l, p a = true) : l.filter p = l := by
  induction l with
  | nil => rfl
  | cons a t ih =>
    rw [List.filter_cons, if_pos (h a (by simp)), ih (fun b hb => h b (by simp [hb]))]

/-- A filter keeping no element is empty. -/
theorem filter_eq_nil_of {α : Type} (l : List α) (p : α → Bool)
    (h : ∀ a ∈ l, p a = false) : l.filter p = [] := by
  induction l with
  | nil => rfl
  | cons a t ih =>
    rw [List.filter_cons, if_neg (by simp [h a (by simp)]),
      ih (fun b hb => h b (by simp [hb]))]

/-- C1: every order committed by the order-creation request satisfies
`total_amount = sum(item.total_price)` over exactly its own items, and every
one of those items satisfies `total_price = unit_price * quantity`, exactly
(integer cent arithmetic, no rounding). -/
theorem order_total_is_sum_of_item_totals
    (s : DB) (cId now : Nat) (sh : String) (notes : Option String)
    (items : List RawItem) (s' : DB) (o : Order)
    (horders : ∀ q ∈ s.orders, q.oid < s.nextId)
    (hitems : ∀ it ∈ s.order_items, it.orderId < s.nextId)
    (h : createOrderRequest s cId now sh notes items = (s', Except.ok o)) :
    (∀ q ∈ s'.orders, q.oid = o.oid →
      q.total_amount = sumTotalPrice (itemsOfOrder s' o.oid)) ∧
    (∀ it ∈ itemsOfOrder s' o.oid, it.total_price = it.unit_price * it.quantity) := by
  obtain ⟨-, hoc⟩ := createOrderRequest_ok_inv h
  obtain ⟨new, b1, b2, b3, b4, b5, b6, b7, b8, b9, b10, b11, b12, b13, b14, b15, b16⟩ :=
    orderCreateBody_ok_spec (fun q hq => Nat.ne_of_lt (horders q hq)) (orderCreate_ok_spec hoc)
  have hfilter : itemsOfOrder s' o.oid = new := by
    unfold itemsOfOrder
    rw [b10, List.filter_append,
      filter_eq_self_of new _ (fun it hit => by
        have h1 := (b11 it hit).1
        simp [h1, b2]),
      filter_eq_nil_of s.order_items _ (fun it hit => by
        have h1 := hitems it hit
        rw [b2]
        simp only [beq_eq_false_iff_ne, ne_eq]
        omega),
      List.append_nil]
  constructor
  · intro q hq hqoid
    rw [b1] at hq
    rcases List.mem_cons.mp hq with rfl | hmem
    · rw [hfilter]; exact b9
    · exfalso
      have := horders q hmem
      rw [b2] at hqoid
      omega
  · rw [hfilter]
    intro it hit
    exact (b11 it hit).2.1

/-- C1 witness: ordering 2 units of the 99.99-priced product commits an order
totalling 199.98 (19998 cents) equal to its single item's total price. -/
theorem order_total_is_sum_of_item_totals_witness :
    (∀ q ∈ dbW.orders, q.oid < dbW.nextId) ∧
    createOrderRequest dbW 1 555 "addr" none [⟨some 7, some 2⟩] = (dbW', Except.ok orderW) ∧
    ((∀ q ∈ dbW'.orders, q.oid = orderW.oid →
        q.total_amount = sumTotalPrice (itemsOfOrder dbW' orderW.oid)) ∧
     (∀ it ∈ itemsOfOrder dbW' orderW.oid, it.total_price = it.unit_price * it.quantity)) :=
  ⟨by decide, by decide,
    order_total_is_sum_of_item_totals dbW 1 555 "addr" none [⟨some 7, some 2⟩] dbW' orderW
      (by decide) (by decide) (by decide)⟩

/-- C2: the order commit is all-or-nothing: a failed request leaves the store
exactly as it was (no order row, no item, no stock change), and a successful
request appends exactly one order with exactly its items, whose stored total
is the sum of those items' totals, and decrements each product's stock by
exactly the quantity those items take from it. -/
theorem order_commit_all_or_nothing
    (s : DB) (cId now : Nat) (sh : String) (notes : Option String) (items : List RawItem)
    (hwf : WF s) :
    (∀ e, (createOrderRequest s cId now sh notes items).2 = Except.error e →
      (createOrderRequest s cId now sh notes items).1 = s) ∧
    (∀ s' o, createOrderRequest s cId now sh notes items = (s', Except.ok o) →
      ∃ new : List OrderItem,
        s'.orders = o :: s.orders ∧
        o.total_amount = sumTotalPrice new ∧
        s'.order_items = new ++ s.order_items ∧
        (∀ it ∈ new, it.orderId = o.oid ∧ it.total_price = it.unit_price * it.quantity) ∧
        (∀ pid, stockOf s' pid = (stockOf s pid).map (fun v => v - itemsQty new pid))) := by
  refine ⟨fun e he => createOrderRequest_error_state he, ?_⟩
  intro s' o h
  obtain ⟨-, hoc⟩ := createOrderRequest_ok_inv h
  obtain ⟨new, b1, b2, b3, b4, b5, b6, b7, b8, b9, b10, b11, b12, b13, b14, b15, b16⟩ :=
    orderCreateBody_ok_spec (fun q hq => Nat.ne_of_lt (hwf.1 q hq)) (orderCreate_ok_spec hoc)
  exact ⟨new, b1, b9, b10,
    fun it hit => ⟨((b11 it hit).1).trans b2.symm, (b11 it hit).2.1⟩, b12⟩

/-- C2 witness: the concrete commit of 2 units against the 10-in-stock store
satisfies the all-or-nothing contract. -/
theorem order_commit_all_or_nothing_witness :
    WF dbW ∧
    ((∀ e, (createOrderRequest dbW 1 555 "addr" none [⟨some 7, some 2⟩]).2 = Except.error e →
       (createOrderRequest dbW 1 555 "addr" none [⟨some 7, some 2⟩]).1 = dbW) ∧
     (∀ s' o, createOrderRequest dbW 1 555 "addr" none [⟨some 7, some 2⟩] = (s', Except.ok o) →
       ∃ new : List OrderItem,
         s'.orders = o :: dbW.orders ∧
         o.total_amount = sumTotalPrice new ∧
         s'.order_items = new ++ dbW.order_items ∧
         (∀ it ∈ new, it.orderId = o.oid ∧ it.total_price = it.unit_price * it.quantity) ∧
         (∀ pid, stockOf s' pid = (stockOf dbW pid).map (fun v => v - itemsQty new pid)))) :=
  ⟨by decide,
    order_commit_all_or_nothing dbW 1 555 "addr" none [⟨some 7, some 2⟩] (by decide)⟩

/-- C4 (amended): the `quantity <= stock` check happens at validation time —
`validate_items` accepts an item only when its quantity does not exceed the
product's stock — and although the commit step performs no re-verification,
no persisted product stock is ever negative after an order-creation request:
the decrement is guarded by the database's non-negativity constraint, whose
violation aborts the whole transaction. -/
theorem stock_checked_at_validation_never_negative
    (s : DB) (cId now : Nat) (sh : String) (notes : Option String)
    (items v : List RawItem) (hwf : WF s) :
    (validate_items s items = .ok v → ∀ it ∈ v, itemPasses s it) ∧
    (∀ p ∈ (createOrderRequest s cId now sh notes items).1.products,
      0 ≤ p.stock_quantity) := by
  constructor
  · intro hv
    obtain ⟨rfl, hnone⟩ := validate_items_ok hv
    exact validateItemsLoop_none_passes s _ hnone
  · intro p hp
    rcases hr : (createOrderRequest s cId now sh notes items).2 with e | o
    · rw [createOrderRequest_error_state hr] at hp
      exact hwf.2.2 p hp
    · have hpair : createOrderRequest s cId now sh notes items =
          ((createOrderRequest s cId now sh notes items).1, Except.ok o) := by
        rw [← hr]
      obtain ⟨-, hoc⟩ := createOrderRequest_ok_inv hpair
      obtain ⟨new, b1, b2, b3, b4, b5, b6, b7, b8, b9, b10, b11, b12, b13, b14, b15, b16⟩ :=
        orderCreateBody_ok_spec (fun q hq => Nat.ne_of_lt (hwf.1 q hq))
          (orderCreate_ok_spec hoc)
      rcases b14 p hp with hm | hpos
      · exact hwf.2.2 p hm
      · exact hpos

/-- C4 counterexample: the commit step (`OrderCreateSerializer.create`) run
while stock no longer covers the requested quantity (1 requested, 0 in stock
at commit, as after a concurrent decrement between validation and commit)
does not re-verify `quantity <= stock`: instead of the InsufficientStock
validation error it attempts the decrement and aborts on the database
constraint. -/
theorem commit_step_no_stock_recheck_cex :
    (orderCreate { dbW with products := [{ prodW with stock_quantity := 0 }] }
        1 555 "addr" none [⟨some 7, some 1⟩]).2 =
      Except.error
        (Err.integrity "value violates check constraint products.stock_quantity is non-negative") ∧
    (orderCreate { dbW with products := [{ prodW with stock_quantity := 0 }] }
        1 555 "addr" none [⟨some 7, some 1⟩]).1 =
      { dbW with products := [{ prodW with stock_quantity := 0 }] } ∧
    findProduct { dbW with products := [{ prodW with stock_quantity := 0 }] } 7 =
      some { prodW with stock_quantity := 0 } ∧
    (1 : Int) > (0 : Int) ∧
    (orderCreate { dbW with products := [{ prodW with stock_quantity := 0 }] }
        1 555 "addr" none [⟨some 7, some 1⟩]).2 ≠
      Except.error (Err.invalidInput (insufficientMsg prodW.name 0)) := by
  decide

/-- C4 witness: the concrete 2-of-10 request keeps every stored stock
non-negative, and its validation enforces the quantity bound. -/
theorem stock_checked_at_validation_never_negative_witness :
    WF dbW ∧
    ((validate_items dbW [⟨some 7, some 2⟩] = .ok [⟨some 7, some 2⟩] →
        ∀ it ∈ [(⟨some 7, some 2⟩ : RawItem)], itemPasses dbW it) ∧
     (∀ p ∈ (createOrderRequest dbW 1 555 "addr" none [⟨some 7, some 2⟩]).1.products,
        0 ≤ p.stock_quantity)) :=
  ⟨by decide,
    stock_checked_at_validation_never_negative dbW 1 555 "addr" none
      [⟨some 7, some 2⟩] [⟨some 7, some 2⟩] (by decide)⟩

/-- If an `(order, product)` row for `pid` already exists, the item loop can
never succeed on a list still containing a line for `pid`: the second INSERT
violates the `unique_together` constraint (or the loop fails earlier). -/
theorem createItemsLoop_dup_present (oid : Nat) :
    ∀ (mid post : List RawItem) (b : RawItem) (pid : Nat) (s : DB) (total : Int),
    b.product_id = some pid →
    (∃ j ∈ s.order_items, j.orderId = oid ∧ j.productId = pid) →
    ∀ res, createItemsLoop oid s total (mid ++ b :: post) ≠ .ok res := by
  intro mid
  induction mid with
  | nil =>
    intro post b pid s total hb hex res h
    obtain ⟨j, hj, hjo, hjp⟩ := hex
    simp only [List.nil_append, createItemsLoop, hb] at h
    cases hq : b.quantity with
    | none => simp [hq] at h
    | some q =>
      simp only [hq] at h
      cases hfp : findProduct s pid with
      | none => simp [hfp] at h
      | some product =>
        simp only [hfp] at h
        rw [presave_snapshot] at h
        split at h
        · exact Except.noConfusion h
        · next s1 heq1 =>
          obtain ⟨-, hno, -⟩ := insertOrderItem_ok heq1
          have hno2 : j.orderId = oid → ¬ j.productId = pid := by simpa using hno j hj
          exact hno2 hjo hjp
  | cons hd mid ih =>
    intro post b pid s total hb hex res h
    simp only [List.cons_append, createItemsLoop] at h
    cases hp : hd.product_id with
    | none => simp [hp] at h
    | some pid0 =>
      cases hq : hd.quantity with
      | none => simp [hp, hq] at h
      | some q0 =>
        cases hfp : findProduct s pid0 with
        | none => simp [hp, hq, hfp] at h
        | some product =>
          simp only [hp, hq, hfp] at h
          rw [presave_snapshot] at h
          split at h
          · exact Except.noConfusion h
          · next s1 heq1 =>
            obtain ⟨hs1, -, -⟩ := insertOrderItem_ok heq1
            split at h
            · exact Except.noConfusion h
            · next sb heq2 =>
              obtain ⟨hsb, -⟩ := saveProduct_ok heq2
              subst hs1
              subst hsb
              refine ih post b pid _ _ hb ?_ res h
              obtain ⟨j, hj, hjo, hjp⟩ := hex
              exact ⟨j, List.mem_cons_of_mem _ hj, hjo, hjp⟩

/-- The item loop can never succeed when two of its lines name the same
product: the first line's INSERT makes the second violate the
`(order, product)` unique constraint (or the loop fails even earlier). -/
theorem createItemsLoop_dup_pair (oid : Nat) :
    ∀ (pre : List RawItem) (a : RawItem) (mid : List RawItem) (b : RawItem)
      (post : List RawItem) (pid : Nat) (s : DB) (total : Int),
    a.product_id = some pid → b.product_id = some pid →
    ∀ res, createItemsLoop oid s total (pre ++ a :: (mid ++ b :: post)) ≠ .ok res := by
  intro pre
  induction pre with
  | nil =>
    intro a mid b post pid s total ha hb res h
    simp only [List.nil_append, createItemsLoop, ha] at h
    cases hq : a.quantity with
    | none => simp [hq] at h
    | some q =>
      simp only [hq] at h
      cases hfp : findProduct s pid with
      | none => simp [hfp] at h
      | some product =>
        simp only [hfp] at h
        rw [presave_snapshot] at h
        split at h
        · exact Except.noConfusion h
        · next s1 heq1 =>
          obtain ⟨hs1, -, -⟩ := insertOrderItem_ok heq1
          split at h
          · exact Except.noConfusion h
          · next sb heq2 =>
            obtain ⟨hsb, -⟩ := saveProduct_ok heq2
            subst hs1
            subst hsb
            refine createItemsLoop_dup_present oid mid post b pid _ _ hb ?_ res h
            exact ⟨_, List.mem_cons_self _ _, rfl, rfl⟩
  | cons hd pre ih =>
    intro a mid b post pid s total ha hb res h
    simp only [List.cons_append, createItemsLoop] at h
    cases hp : hd.product_id with
    | none => simp [hp] at h
    | some pid0 =>
      cases hq : hd.quantity with
      | none => simp [hp, hq] at h
      | some q0 =>
        cases hfp : findProduct s pid0 with
        | none => simp [hp, hq, hfp] at h
        | some product =>
          simp only [hp, hq, hfp] at h
          rw [presave_snapshot] at h
          split at h
          · exact Except.noConfusion h
          · next s1 heq1 =>
            obtain ⟨hs1, -, -⟩ := insertOrderItem_ok heq1
            split at h
            · exact Except.noConfusion h
            · next sb heq2 =>
              obtain ⟨hsb, -⟩ := saveProduct_ok heq2
              subst hs1
              subst hsb
              exact ih a mid b post pid _ _ ha hb res h

/-- C5 (amended): a submission in which the same product_id appears in more
than one line item is never committed — quantities are not merged — but it is
not rejected as a `ValidationError` before mutation: `validate_items` lets it
through, the request fails during the atomic commit (in the clean case on the
`(order, product)` unique constraint, an `IntegrityError`), and the rollback
leaves the store untouched. -/
theorem duplicate_product_fails_at_commit
    (s : DB) (cId now : Nat) (sh : String) (notes : Option String)
    (pre : List RawItem) (a : RawItem) (mid : List RawItem) (b : RawItem)
    (post : List RawItem) (pid : Nat)
    (ha : a.product_id = some pid) (hb : b.product_id = some pid) :
    (∃ e, (createOrderRequest s cId now sh notes (pre ++ a :: (mid ++ b :: post))).2 =
      Except.error e) ∧
    (createOrderRequest s cId now sh notes (pre ++ a :: (mid ++ b :: post))).1 = s := by
  rcases hr : (createOrderRequest s cId now sh notes (pre ++ a :: (mid ++ b :: post))).2
    with e | o
  · exact ⟨⟨e, rfl⟩, createOrderRequest_error_state hr⟩
  · exfalso
    have hpair : createOrderRequest s cId now sh notes (pre ++ a :: (mid ++ b :: post)) =
        ((createOrderRequest s cId now sh notes (pre ++ a :: (mid ++ b :: post))).1,
          Except.ok o) := by
      rw [← hr]
    obtain ⟨-, hoc⟩ := createOrderRequest_ok_inv hpair
    have hbody := orderCreate_ok_spec hoc
    simp only [orderCreateBody] at hbody
    split at hbody
    · exact Except.noConfusion hbody
    · next s1 o1 heq1 =>
      split at hbody
      · exact Except.noConfusion hbody
      · next s2 total heq2 =>
        exact createItemsLoop_dup_pair o1.oid pre a mid b post pid s1 0 ha hb _ heq2

/-- C5 counterexample: a request repeating product 7 in two lines passes
`validate_items` unchanged (it is not rejected as a ValidationError before
mutation) and then fails during commit with the `(order, product)`
unique-constraint `IntegrityError` — a different error kind — with the store
rolled back. -/
theorem duplicate_product_passes_validation_cex :
    validate_items dbW [⟨some 7, some 1⟩, ⟨some 7, some 2⟩] =
      Except.ok [⟨some 7, some 1⟩, ⟨some 7, some 2⟩] ∧
    (createOrderRequest dbW 1 555 "addr" none [⟨some 7, some 1⟩, ⟨some 7, some 2⟩]).2 =
      Except.error (Err.integrity
        "duplicate key value violates unique constraint on order_items (order, product)") ∧
    (createOrderRequest dbW 1 555 "addr" none [⟨some 7, some 1⟩, ⟨some 7, some 2⟩]).1 =
      dbW := by
  decide

/-- C5 witness: the concrete duplicated-product request fails with some error
and leaves the store untouched. -/
theorem duplicate_product_fails_at_commit_witness :
    (⟨some 7, some 1⟩ : RawItem).product_id = some 7 ∧
    (⟨some 7, some 2⟩ : RawItem).product_id = some 7 ∧
    ((∃ e, (createOrderRequest dbW 1 555 "addr" none
        ([] ++ ⟨some 7, some 1⟩ :: ([] ++ ⟨some 7, some 2⟩ :: []))).2 = Except.error e) ∧
     (createOrderRequest dbW 1 555 "addr" none
        ([] ++ ⟨some 7, some 1⟩ :: ([] ++ ⟨some 7, some 2⟩ :: []))).1 = dbW) :=
  ⟨rfl, rfl,
    duplicate_product_fails_at_commit dbW 1 555 "addr" none [] ⟨some 7, some 1⟩ []
      ⟨some 7, some 2⟩ [] 7 rfl rfl⟩

/-- C9 (amended): every order committed through the request flow receives its
order number at creation time (`Order.save` assigns the timestamp-derived
value to the row, which is created with no number set), and persisted orders
always carry pairwise-distinct numbers — not because the generation strategy
cannot collide (it repeats within one wall-clock second) but because the
unique constraint on `order_number` aborts a colliding save instead of
persisting it. -/
theorem order_number_assignment_and_distinctness
    (s : DB) (cId now : Nat) (sh : String) (notes : Option String) (items : List RawItem)
    (hfresh : ∀ q ∈ s.orders, q.oid < s.nextId) :
    (∀ s' o, createOrderRequest s cId now sh notes items = (s', Except.ok o) →
      o ∈ s'.orders ∧ o.order_number = genOrderNumber now) ∧
    (s.orders.Pairwise (fun q1 q2 => q1.order_number ≠ q2.order_number) →
      (createOrderRequest s cId now sh notes items).1.orders.Pairwise
        (fun q1 q2 => q1.order_number ≠ q2.order_number)) := by
  constructor
  · intro s' o h
    obtain ⟨-, hoc⟩ := createOrderRequest_ok_inv h
    obtain ⟨new, b1, b2, b3, b4, b5, b6, b7, b8, b9, b10, b11, b12, b13, b14, b15, b16⟩ :=
      orderCreateBody_ok_spec (fun q hq => Nat.ne_of_lt (hfresh q hq))
        (orderCreate_ok_spec hoc)
    exact ⟨by rw [b1]; exact List.mem_cons_self _ _, b3⟩
  · intro hpw
    rcases hr : (createOrderRequest s cId now sh notes items).2 with e | o
    · rw [createOrderRequest_error_state hr]
      exact hpw
    · have hpair : createOrderRequest s cId now sh notes items =
          ((createOrderRequest s cId now sh notes items).1, Except.ok o) := by
        rw [← hr]
      obtain ⟨-, hoc⟩ := createOrderRequest_ok_inv hpair
      obtain ⟨new, b1, b2, b3, b4, b5, b6, b7, b8, b9, b10, b11, b12, b13, b14, b15, b16⟩ :=
        orderCreateBody_ok_spec (fun q hq => Nat.ne_of_lt (hfresh q hq))
          (orderCreate_ok_spec hoc)
      rw [b1]
      refine List.Pairwise.cons ?_ hpw
      intro q hq
      rw [b3]
      exact (b4 q hq).symm

/-- C9 counterexample: two order creations within the same wall-clock second
(`now = 100`) generate the same order number `ORD-100`; the first commits and
the second fails on the `order_number` unique constraint with no
regeneration — the timestamp-derived strategy does not by itself yield unique
values for distinct creations. -/
theorem order_number_same_second_collision_cex :
    genOrderNumber 100 = genOrderNumber 100 ∧
    createOrderRequest dbW 1 100 "addr" none [⟨some 7, some 1⟩] =
      (dbW1, Except.ok orderW1) ∧
    (createOrderRequest dbW1 1 100 "addr" none [⟨some 7, some 1⟩]).2 =
      Except.error (Err.integrity
        "duplicate key value violates unique constraint on orders.order_number") ∧
    (createOrderRequest dbW1 1 100 "addr" none [⟨some 7, some 1⟩]).1 = dbW1 := by
  decide

/-- C9 witness: the concrete commit at second 100 receives `ORD-100` at
creation and preserves pairwise distinctness of persisted numbers. -/
theorem order_number_assignment_and_distinctness_witness :
    (∀ q ∈ dbW.orders, q.oid < dbW.nextId) ∧
    ((∀ s' o, createOrderRequest dbW 1 100 "addr" none [⟨some 7, some 1⟩] =
        (s', Except.ok o) → o ∈ s'.orders ∧ o.order_number = genOrderNumber 100) ∧
     (dbW.orders.Pairwise (fun q1 q2 => q1.order_number ≠ q2.order_number) →
       (createOrderRequest dbW 1 100 "addr" none [⟨some 7, some 1⟩]).1.orders.Pairwise
         (fun q1 q2 => q1.order_number ≠ q2.order_number))) :=
  ⟨by decide,
    order_number_assignment_and_distinctness dbW 1 100 "addr" none [⟨some 7, some 1⟩]
      (by decide)⟩

/-- Items that passed `validate_items` also pass the `get_object_or_404`
total-computation loop of `perform_create`. -/
theorem performCreateTotalLoop_ok (s : DB) :
    ∀ its, (∀ it ∈ its, itemPasses s it) → ∃ t, performCreateTotalLoop s its = .ok t := by
  intro its
  induction its with
  | nil => exact fun _ => ⟨0, rfl⟩
  | cons item rest ih =>
    intro hall
    obtain ⟨pid, q, p, h1, h2, h3, h4⟩ := hall item (by simp)
    obtain ⟨t, ht⟩ := ih (fun it hit => hall it (by simp [hit]))
    refine ⟨p.price * q + t, ?_⟩
    simp only [performCreateTotalLoop, h1, h2, h3, ht]

/-- C10: a request routed through `OrderListCreateView.perform_create` never
persists anything — the store is returned untouched and the response is an
error — and whenever the serializer validation passes (so `perform_create` is
actually reached and its 404 loop succeeds), that error is precisely the
duplicate-keyword-argument `TypeError` raised by
`Order.objects.create(customer=.., total_amount=.., **validated_data)` after
`serializer.save(customer=.., total_amount=.., shipping_address=..)` merged
those keys into `validated_data`. -/
theorem view_perform_create_duplicate_kwarg
    (s : DB) (cId now : Nat) (sh : String) (notes : Option String) (items : List RawItem) :
    ((viewCreateOrder s cId now sh notes items).1 = s ∧
     ∃ e, (viewCreateOrder s cId now sh notes items).2 = Except.error e) ∧
    (∀ v, validate_items s items = .ok v →
      (viewCreateOrder s cId now sh notes items).2 =
        Except.error (Err.typeError "create() got multiple values for a keyword argument")) := by
  have hdup : orderCreateDupKwarg
      (dictUnionKeys orderCreateValidatedKeys
        ["customer", "total_amount", "shipping_address"]) = true := by decide
  constructor
  · cases hv : validate_items s items with
    | error e =>
      unfold viewCreateOrder
      simp only [hv]
      exact ⟨trivial, e, rfl⟩
    | ok v =>
      cases ht : performCreateTotalLoop s v with
      | error e =>
        unfold viewCreateOrder
        simp only [hv, ht]
        exact ⟨trivial, e, rfl⟩
      | ok t =>
        unfold viewCreateOrder
        simp only [hv, ht]
        unfold serializerCreate
        rw [if_pos hdup]
        exact ⟨rfl, _, rfl⟩
  · intro v hv
    obtain ⟨rfl, hnone⟩ := validate_items_ok hv
    obtain ⟨t, ht⟩ := performCreateTotalLoop_ok s v (validateItemsLoop_none_passes s v hnone)
    unfold viewCreateOrder
    simp only [hv, ht]
    unfold serializerCreate
    rw [if_pos hdup]

/-- C10 witness: the concrete valid request dies with the duplicate-keyword
`TypeError` and the store is untouched. -/
theorem view_perform_create_duplicate_kwarg_witness :
    validate_items dbW [⟨some 7, some 2⟩] = .ok [⟨some 7, some 2⟩] ∧
    ((viewCreateOrder dbW 1 555 "addr" none [⟨some 7, some 2⟩]).1 = dbW ∧
     ∃ e, (viewCreateOrder dbW 1 555 "addr" none [⟨some 7, some 2⟩]).2 = Except.error e) ∧
    (viewCreateOrder dbW 1 555 "addr" none [⟨some 7, some 2⟩]).2 =
      Except.error (Err.typeError "create() got multiple values for a keyword argument") :=
  ⟨by decide,
    (view_perform_create_duplicate_kwarg dbW 1 555 "addr" none [⟨some 7, some 2⟩]).1,
    (view_perform_create_duplicate_kwarg dbW 1 555 "addr" none [⟨some 7, some 2⟩]).2
      [⟨some 7, some 2⟩] (by decide)⟩

/-- C8: `category_average_price` over a category whose subtree holds zero
active products answers with `product_count = 0` and no numeric average
(`average_price` is `None`, neither a fabricated zero nor a division error),
and it answers 404 NotFound when no existing category with the requested id is
active. -/
theorem category_average_price_zero_and_notfound (s : DB) (cid : Nat) :
    (∀ category, s.categories.find? (fun c => c.cid == cid && c.is_active) = some category →
      subtreeProducts s category = [] →
      ∃ r, category_average_price s cid = .ok r ∧
        r.product_count = 0 ∧ r.average_price = none) ∧
    ((∀ c ∈ s.categories, c.cid = cid → c.is_active = false) →
      category_average_price s cid = .error (.notFound "Category not found")) := by
  constructor
  · intro category hfind hempty
    have hres : category_average_price s cid = .ok
        { category_id := category.cid, category_name := category.name,
          average_price := none, product_count := 0, total_value := none,
          message := some "No products found in this category" } := by
      unfold category_average_price
      simp only [hfind, hempty]
      rfl
    exact ⟨_, hres, rfl, rfl⟩
  · intro hnone
    have hfind : s.categories.find? (fun c => c.cid == cid && c.is_active) = none := by
      rw [List.find?_eq_none]
      intro c hc hcp
      simp only [Bool.and_eq_true, beq_iff_eq] at hcp
      have := hnone c hc hcp.1
      rw [this] at hcp
      exact Bool.noConfusion hcp.2
    unfold category_average_price
    rw [hfind]

/-- C8 witness: category `B` (active, empty subtree) answers count 0 with a
`None` average; the unknown id 5 answers NotFound. -/
theorem category_average_price_zero_and_notfound_witness :
    dbW.categories.find? (fun c => c.cid == 1 && c.is_active) = some chainB ∧
    subtreeProducts dbW chainB = [] ∧
    (∃ r, category_average_price dbW 1 = .ok r ∧
      r.product_count = 0 ∧ r.average_price = none) ∧
    (∀ c ∈ dbW.categories, c.cid = 5 → c.is_active = false) ∧
    category_average_price dbW 5 = Except.error (Err.notFound "Category not found") :=
  ⟨by decide, by decide,
    (category_average_price_zero_and_notfound dbW 1).1 chainB (by decide) (by decide),
    by decide,
    (category_average_price_zero_and_notfound dbW 5).2 (by decide)⟩

/-- Membership through the name-ordering insertion step. -/
theorem mem_insertByName {x c : Category} {l : List Category} :
    x ∈ insertByName c l ↔ x = c ∨ x ∈ l := by
  induction l with
  | nil => simp [insertByName]
  | cons d ds ih =>
    unfold insertByName
    by_cases h : c.name ≤ d.name
    · rw [if_pos h]
      simp [List.mem_cons]
    · rw [if_neg h]
      simp only [List.mem_cons, ih]
      tauto

/-- Sorting by name does not change membership. -/
theorem mem_orderByName {x : Category} {l : List Category} :
    x ∈ orderByName l ↔ x ∈ l := by
  induction l with
  | nil => simp [orderByName]
  | cons c t ih =>
    show x ∈ insertByName c (orderByName t) ↔ _
    rw [mem_insertByName]
    simp [ih]

/-- Membership in the active-children queryset. -/
theorem mem_activeChildrenOf {x : Category} {cats : List Category} {parent : Option Nat} :
    x ∈ activeChildrenOf cats parent ↔
      x ∈ cats ∧ x.parentId = parent ∧ x.is_active = true := by
  unfold activeChildrenOf
  rw [mem_orderByName, List.mem_filter]
  simp [Bool.and_eq_true]

/-- Inversion of membership in a `build_tree` forest: each tree comes from an
active category matching the parent filter, with the node fields copied from
it and the children built one fuel level lower. -/
theorem mem_build_tree {cats : List Category} :
    ∀ {fuel : Nat} {parent : Option Nat} {t : TreeNode}, t ∈ build_tree cats fuel parent →
      ∃ c ∈ cats, c.is_active = true ∧ c.parentId = parent ∧
        t = { id := c.cid, name := c.name, slug := c.slug, description := c.description,
              level := Category.level cats c,
              children := build_tree cats (fuel - 1) (some c.cid) } := by
  intro fuel parent t h
  cases fuel with
  | zero => simp [build_tree] at h
  | succ f =>
    simp only [build_tree] at h
    rcases List.mem_map.mp h with ⟨c, hc, rfl⟩
    obtain ⟨hmem, hpar, hact⟩ := mem_activeChildrenOf.mp hc
    exact ⟨c, hmem, hact, hpar, rfl⟩

/-- Every node at every depth of a `build_tree` forest copies the fields of
some active category, including its computed level. -/
theorem build_tree_nodes_good (cats : List Category) :
    ∀ fuel k (parent : Option Nat) t0, t0 ∈ build_tree cats fuel parent →
      ∀ t ∈ allNodesF k t0,
      ∃ c ∈ cats, c.is_active = true ∧ t.id = c.cid ∧ t.name = c.name ∧ t.slug = c.slug ∧
        t.description = c.description ∧ t.level = Category.level cats c := by
  intro fuel
  induction fuel with
  | zero =>
    intro k parent t0 h
    simp [build_tree] at h
  | succ f ih =>
    intro k parent t0 h t ht
    obtain ⟨c, hc, hact, hpar, rfl⟩ := mem_build_tree h
    cases k with
    | zero =>
      simp only [allNodesF, List.mem_singleton] at ht
      subst ht
      exact ⟨c, hc, hact, rfl, rfl, rfl, rfl, rfl⟩
    | succ kk =>
      simp only [allNodesF] at ht
      rcases List.mem_cons.mp ht with rfl | hmem
      · exact ⟨c, hc, hact, rfl, rfl, rfl, rfl, rfl⟩
      · rcases List.mem_flatMap.mp hmem with ⟨t1, ht1, htt⟩
        exact ih kk (some c.cid) t1 ht1 t htt

/-- Every node id of a `build_tree` forest is reachable from the root filter
through active children only. -/
theorem build_tree_ids_reach (cats : List Category) :
    ∀ fuel (parent : Option Nat) t0, t0 ∈ build_tree cats fuel parent →
      ∀ t ∈ allNodesF fuel t0, t.id ∈ activeReach cats fuel parent := by
  intro fuel
  induction fuel with
  | zero =>
    intro parent t0 h
    simp [build_tree] at h
  | succ f ih =>
    intro parent t0 h t ht
    obtain ⟨c, hc, hact, hpar, rfl⟩ := mem_build_tree h
    have hcf : c ∈ cats.filter (fun c => c.parentId == parent && c.is_active) :=
      List.mem_filter.mpr ⟨hc, by simp [hpar, hact]⟩
    simp only [allNodesF] at ht
    rcases List.mem_cons.mp ht with rfl | hmem
    · simp only [activeReach]
      exact List.mem_flatMap.mpr ⟨c, hcf, List.mem_cons_self _ _⟩
    · rcases List.mem_flatMap.mp hmem with ⟨t1, ht1, htt⟩
      have := ih (some c.cid) t1 ht1 t htt
      simp only [activeReach]
      exact List.mem_flatMap.mpr ⟨c, hcf, List.mem_cons_of_mem _ this⟩

/-- A category id in the active reach belongs to an active category whose
parent filter either is the root filter or is another id in the reach of an
active category — the parent chain inside the reach is active. -/
theorem activeReach_chain (cats : List Category)
    (hnd : (cats.map (fun c => c.cid)).Nodup) :
    ∀ fuel (parent : Option Nat) d, d ∈ cats → d.cid ∈ activeReach cats fuel parent →
      d.is_active = true ∧
      (d.parentId = parent ∨ ∃ e ∈ cats, e.is_active = true ∧ d.parentId = some e.cid ∧
        e.cid ∈ activeReach cats fuel parent) := by
  intro fuel
  induction fuel with
  | zero =>
    intro parent d hd h
    simp [activeReach] at h
  | succ f ih =>
    intro parent d hd h
    simp only [activeReach] at h
    rcases List.mem_flatMap.mp h with ⟨c, hcf, hcm⟩
    obtain ⟨hc_mem, hc_pred⟩ := List.mem_filter.mp hcf
    rw [Bool.and_eq_true] at hc_pred
    obtain ⟨hc_par, hc_act⟩ := hc_pred
    have hc_par2 : c.parentId = parent := by simpa using hc_par
    have hhead : c.cid ∈ activeReach cats (f+1) parent := by
      simp only [activeReach]
      exact List.mem_flatMap.mpr ⟨c, hcf, List.mem_cons_self _ _⟩
    rcases List.mem_cons.mp hcm with hceq | hsub
    · have hdc : d = c := by
        have hinj := List.inj_on_of_nodup_map hnd
        exact hinj hd hc_mem (by simpa using hceq)
      rw [hdc]
      exact ⟨hc_act, Or.inl hc_par2⟩
    · obtain ⟨hdact, hrest⟩ := ih (some c.cid) d hd hsub
      refine ⟨hdact, ?_⟩
      rcases hrest with hpar | ⟨e, he, heact, hepar, hereach⟩
      · exact Or.inr ⟨c, hc_mem, hc_act, hpar, hhead⟩
      · refine Or.inr ⟨e, he, heact, hepar, ?_⟩
        simp only [activeReach]
        exact List.mem_flatMap.mpr ⟨c, hcf, List.mem_cons_of_mem _ hereach⟩

/-- The id of an inactive category never enters the active reach. -/
theorem inactive_not_in_reach (cats : List Category)
    (hnd : (cats.map (fun c => c.cid)).Nodup) (c : Category)
    (hc : c ∈ cats) (hinact : c.is_active = false) :
    ∀ fuel (parent : Option Nat), c.cid ∉ activeReach cats fuel parent := by
  intro fuel parent h
  have := (activeReach_chain cats hnd fuel parent c hc h).1
  rw [hinact] at this
  exact Bool.noConfusion this

/-- Descendants of a category missing from the active reach are also missing
from it: the reach is closed under removing an unreached parent. -/
theorem descendants_not_in_reach (cats : List Category)
    (hnd : (cats.map (fun c => c.cid)).Nodup) (n : Nat) :
    ∀ fuel (x : Category), x.cid ∉ activeReach cats n none →
      ∀ d ∈ descendantsAux cats fuel x, d.cid ∉ activeReach cats n none := by
  intro fuel
  induction fuel with
  | zero =>
    intro x hx d hd
    simp [descendantsAux] at hd
  | succ f ih =>
    intro x hx d hd
    simp only [descendantsAux] at hd
    rcases List.mem_flatMap.mp hd with ⟨child, hchild, hdm⟩
    have hchild2 : child ∈ cats ∧ child.parentId = some x.cid := by
      have hmm := mem_orderByName.mp hchild
      obtain ⟨hm, hp⟩ := List.mem_filter.mp hmm
      exact ⟨hm, by simpa using hp⟩
    have hchild_not : child.cid ∉ activeReach cats n none := by
      intro habs
      have hchain := activeReach_chain cats hnd n none child hchild2.1 habs
      rcases hchain.2 with hpar | ⟨e, he, heact, hepar, hereach⟩
      · rw [hchild2.2] at hpar
        exact Option.noConfusion hpar
      · rw [hchild2.2] at hepar
        have hxe : x.cid = e.cid := by injection hepar
        exact hx (hxe ▸ hereach)
    rcases List.mem_cons.mp hdm with rfl | hdm2
    · exact hchild_not
    · exact ih child hchild_not d hdm2

/-- C7: the public category tree includes only active categories — every node
at every depth copies the `{id, name, slug, description, level, children}`
fields of an active category; an inactive category is a hard cut: neither its
own id nor the id of any of its descendants (active or not) appears anywhere
in the tree; the roots are the active categories with a null parent; and an
empty category table yields the empty sequence. -/
theorem category_tree_active_pruned_shape (cats : List Category)
    (hnd : (cats.map (fun c => c.cid)).Nodup) :
    (∀ t ∈ treeNodes cats, ∃ c ∈ cats, c.is_active = true ∧
       t.id = c.cid ∧ t.name = c.name ∧ t.slug = c.slug ∧
       t.description = c.description ∧ t.level = Category.level cats c) ∧
    (∀ c ∈ cats, c.is_active = false →
       (∀ t ∈ treeNodes cats, t.id ≠ c.cid) ∧
       (∀ d ∈ get_descendants cats c, ∀ t ∈ treeNodes cats, t.id ≠ d.cid)) ∧
    (∀ t ∈ category_tree cats, ∃ c ∈ cats, c.is_active = true ∧ c.parentId = none ∧
       t.id = c.cid) ∧
    category_tree ([] : List Category) = [] := by
  refine ⟨?_, ?_, ?_, rfl⟩
  · intro t ht
    rcases List.mem_flatMap.mp ht with ⟨t0, ht0, htt⟩
    exact build_tree_nodes_good cats cats.length cats.length none t0 ht0 t htt
  · intro c hc hinact
    have hreach : ∀ t ∈ treeNodes cats, t.id ∈ activeReach cats cats.length none := by
      intro t ht
      rcases List.mem_flatMap.mp ht with ⟨t0, ht0, htt⟩
      exact build_tree_ids_reach cats cats.length none t0 ht0 t htt
    constructor
    · intro t ht heq
      exact inactive_not_in_reach cats hnd c hc hinact cats.length none
        (heq ▸ hreach t ht)
    · intro d hd t ht heq
      have hcnot : c.cid ∉ activeReach cats cats.length none :=
        inactive_not_in_reach cats hnd c hc hinact cats.length none
      exact descendants_not_in_reach cats hnd cats.length cats.length c hcnot d hd
        (heq ▸ hreach t ht)
  · intro t ht
    obtain ⟨c, hc, hact, hpar, rfl⟩ := mem_build_tree ht
    exact ⟨c, hc, hact, hpar, rfl⟩

/-- C7 witness: the arena with active `A`, inactive `B` (child of `A`) and
active `C` (child of `B`) satisfies the tree contract — in particular `C` is
pruned even though it is active. -/
theorem category_tree_active_pruned_shape_witness :
    (prunedCats.map (fun c => c.cid)).Nodup ∧
    ((∀ t ∈ treeNodes prunedCats, ∃ c ∈ prunedCats, c.is_active = true ∧
        t.id = c.cid ∧ t.name = c.name ∧ t.slug = c.slug ∧
        t.description = c.description ∧ t.level = Category.level prunedCats c) ∧
     (∀ c ∈ prunedCats, c.is_active = false →
        (∀ t ∈ treeNodes prunedCats, t.id ≠ c.cid) ∧
        (∀ d ∈ get_descendants prunedCats c, ∀ t ∈ treeNodes prunedCats, t.id ≠ d.cid)) ∧
     (∀ t ∈ category_tree prunedCats, ∃ c ∈ prunedCats, c.is_active = true ∧
        c.parentId = none ∧ t.id = c.cid) ∧
     category_tree ([] : List Category) = []) :=
  ⟨by decide, category_tree_active_pruned_shape prunedCats (by decide)⟩
